import Mathlib

/-!
Shallow embedding of the image materialization core of container-diff:
the source resolver (`ImagePrepper.GetImage` in pkg/util/image_prepper.go,
with the `CloudPrepper` strategy in pkg/util/cloud_prepper.go), the layer
acquisition pipeline (`processLayers` in the util package), the result
renderer (`outputResults` in the cmd package) and `CleanupImage`.
Go strings are Lean `String`s; Go errors are the `Except String` monad;
Go's mutation of `ImagePrepper.Source` is explicit state passing.
-/

namespace ContainerDiff

/-- Model of Go `strings.HasPrefix(s, pre)`: `pre` is a prefix of `s`.
Uses the structurally recursive `List.isPrefixOf` on the character data. -/
def goHasPrefix (s pre : String) : Bool :=
  pre.data.isPrefixOf s.data

/-- One step of removing every non-overlapping occurrence of `old` from a
character list, scanning left to right, consuming at least one character per
step; `fuel` bounds the recursion and is instantiated with the list length. -/
def removeAllFuel (old : List Char) : Nat → List Char → List Char
  | 0, l => l
  | _ + 1, [] => []
  | fuel + 1, c :: rest =>
    if old.isPrefixOf (c :: rest) then
      removeAllFuel old fuel (List.drop (old.length - 1) rest)
    else
      c :: removeAllFuel old fuel rest

/-- Model of Go `strings.Replace(s, old, "", -1)`: remove every
non-overlapping occurrence of `old` from `s`, scanning left to right
(faithful for nonempty `old`, which is the only way the code calls it). -/
def goRemoveAll (s old : String) : String :=
  ⟨removeAllFuel old.data s.data.length s.data⟩

/-- `pat` occurs as a contiguous sublist of `l` (at any position). -/
def listContains (pat : List Char) : List Char → Bool
  | [] => pat.isEmpty
  | c :: rest => pat.isPrefixOf (c :: rest) || listContains pat rest

/-- Model of Go `regexp.MustCompile(pat + ".*").MatchString(s)` for a literal
`pat`: an unanchored regex match, i.e. `pat` occurs as a substring of `s`. -/
def goContains (s pat : String) : Bool :=
  listContains pat.data s.data

/-- `const DaemonPrefix = "daemon://"`. Modelled from the spec: the constant
is declared in the daemon prepper file, which is not part of the provided
sources; its value is fixed by the spec's daemon-scheme prefix and by the
repository's integration tests (`daemon://gcr.io/...`). -/
def DaemonScheme : String := "daemon://"

/-- `const RemotePrefix = "remote://"` (pkg/util/cloud_prepper.go). -/
def RemoteScheme : String := "remote://"

/-- `type ImageHistoryItem struct { CreatedBy string }`. -/
structure ImageHistoryItem where
  CreatedBy : String
deriving DecidableEq, Repr

/-- `type ConfigObject struct { Env []string }`. -/
structure ConfigObject where
  Env : List String
deriving DecidableEq, Repr

/-- `type ConfigSchema struct { Config ConfigObject; History []ImageHistoryItem }`. -/
structure ConfigSchema where
  Config : ConfigObject
  History : List ImageHistoryItem
deriving DecidableEq, Repr

/-- The zero value `ConfigSchema{}` of the Go struct. -/
def ConfigSchema.empty : ConfigSchema :=
  { Config := { Env := [] }, History := [] }

/-- `type Image struct { Source string; FSPath string; Config ConfigSchema }`. -/
structure Image where
  Source : String
  FSPath : String
  Config : ConfigSchema
deriving DecidableEq, Repr

/-- One acquisition strategy (a `Prepper` implementation), relative to the
shared mutable `ImagePrepper.Source` field: `supports` models
`SupportsImage()`, which reads the stored identifier and may normalize it
(it returns the claim bit together with the possibly-updated identifier);
`getFileSystem` and `getConfig` model `GetFileSystem()` and `GetConfig()`
reading the stored identifier. Errors are strings. -/
structure StrategyM where
  supports : String → Bool × String
  getFileSystem : String → Except String String
  getConfig : String → Except String ConfigSchema

/-- `getImage(prepper Prepper)` from pkg/util/image_prepper.go (lines 41-58):
materialize the filesystem, then extract the config; either failure is
wrapped with `fmt.Errorf("error msg: %s", ...)` and aborts; on success the
returned `Image` records the prepper's current source. -/
def getImage (st : StrategyM) (source : String) : Except String Image :=
  match st.getFileSystem source with
  | .error e => .error ("error msg: " ++ e)
  | .ok imgPath =>
    match st.getConfig source with
    | .error e => .error ("error msg: " ++ e)
    | .ok config => .ok { Source := source, FSPath := imgPath, Config := config }

/-- `getImage(p Prepper)` from the other revision of the util package
(part_002, lines 61-79): a `GetConfig` failure is only logged
(`glog.Error("Error retrieving History: ", err)`) and the function still
returns a success `Image` carrying the zero `ConfigSchema` that the failing
`GetConfig` implementations return alongside their error; only a
`GetFileSystem` failure aborts. -/
def getImageLogged (st : StrategyM) (source : String) : Except String Image :=
  match st.getFileSystem source with
  | .error e => .error e
  | .ok imgPath =>
    let config :=
      match st.getConfig source with
      | .error _ => ConfigSchema.empty
      | .ok c => c
    .ok { Source := source, FSPath := imgPath, Config := config }

/-- The three strategies available to the resolver, in the roles of the
daemon prepper, the cloud-registry prepper and the tar prepper. -/
structure Preppers where
  daemon : StrategyM
  cloud : StrategyM
  tarFile : StrategyM

/-- The probe loop of `ImagePrepper.GetImage` (image_prepper.go lines 77-90)
over `orderedPreppers`: ask each strategy's `SupportsImage` in turn
(threading the possibly-normalized stored identifier), run `getImage` on the
first that claims the identifier, `continue` to the next strategy when that
`getImage` fails, and fall through to the fixed resolution-failure error when
the list is exhausted. -/
def probeLoop : List StrategyM → String → Except String Image
  | [], _ => .error "Could not retrieve image from source"
  | st :: rest, source =>
    if (st.supports source).1 then
      match getImage st (st.supports source).2 with
      | .ok img => .ok img
      | .error _ => probeLoop rest (st.supports source).2
    else
      probeLoop rest (st.supports source).2

/-- `orderedPreppers`. Modelled from the spec: the ordered constructor list is
declared outside the provided sources; the spec fixes the probe priority as
local daemon first, then remote registry, then local tar file. -/
def orderedPreppers (ps : Preppers) : List StrategyM :=
  [ps.daemon, ps.cloud, ps.tarFile]

/-- `ImagePrepper.GetImage()` (image_prepper.go lines 60-91): an identifier
starting with the daemon scheme is stripped of every occurrence of that
scheme (`strings.Replace(..., -1)`) and handed to the daemon prepper
unconditionally; else an identifier starting with the remote scheme is
stripped likewise and handed to the cloud prepper unconditionally; otherwise
the resolver probes `orderedPreppers`. -/
def GetImage (ps : Preppers) (source : String) : Except String Image :=
  if goHasPrefix source DaemonScheme then
    getImage ps.daemon (goRemoveAll source DaemonScheme)
  else if goHasPrefix source RemoteScheme then
    getImage ps.cloud (goRemoveAll source RemoteScheme)
  else
    probeLoop (orderedPreppers ps) source

/-- `CloudPrepper.SupportsImage()` as in the first revision of
pkg/util/cloud_prepper.go (lines 42-55). `parse` models
`reference.Parse` of the external registry-reference library (true when the
identifier parses as a valid registry image reference, per the spec);
`isTar` models `IsTar`, declared outside the provided sources (true when the
identifier is a tar-archive path, per the spec). The result pairs the
returned boolean with the stored identifier after any mutation: the revision
returns true — and overwrites the stored identifier with the remote-scheme
stripped form — exactly when the daemon regex does not match, `IsTar` is
false, and `reference.Parse` on the original identifier FAILS. -/
def cloudSupportsRevA (parse isTar : String → Bool) (source : String) :
    Bool × String :=
  if goContains source DaemonScheme || isTar source then (false, source)
  else
    let strippedSource := goRemoveAll source RemoteScheme
    if parse source = false then (true, strippedSource)
    else (false, source)

/-- `CloudPrepper.SupportsImage()` as in the second revision of
pkg/util/cloud_prepper.go (lines 110-117): false when the daemon regex
matches, else true exactly when `reference.Parse` succeeds and the
identifier is not a tar path; the stored identifier is never modified. -/
def cloudSupportsRevB (parse isTar : String → Bool) (source : String) : Bool :=
  if goContains source DaemonScheme then false
  else parse source && !isTar source

/-- A file-system tree as an association of paths to file contents, in
materialization order. -/
abbrev FsTree : Type := List (String × String)

/-- One tar entry of a layer: a regular file, or a whiteout marker.
Modelled from the spec: the tar-decoding helper `unpackTar` is declared
outside the provided sources; the spec's Archive Decoder contract says a
whiteout marker deletes the already-materialized sibling path. -/
inductive TarEntry where
  | file (path content : String)
  | whiteout (path : String)
deriving DecidableEq, Repr

/-- Write one path/content pair into the tree, overwriting the content of an
existing path and appending a new one. -/
def writeFile (path content : String) : FsTree → FsTree
  | [] => [(path, content)]
  | (p, c) :: rest =>
    if p = path then (p, content) :: rest
    else (p, c) :: writeFile path content rest

/-- Apply one tar entry to the destination tree. -/
def applyEntry (t : FsTree) : TarEntry → FsTree
  | .file path content => writeFile path content t
  | .whiteout path => t.filter (fun pc => pc.1 ≠ path)

/-- Modelled from the spec: `unpackTar(tr, path)` materializes every entry of
one layer's tar stream into the destination tree, in stream order, honoring
whiteout markers. -/
def unpackTarModel (entries : List TarEntry) (t : FsTree) : FsTree :=
  entries.foldl applyEntry t

/-- The destination tree produced when the per-layer goroutines of
`processLayers` (part_002, lines 116-163) finish their `unpackTar` calls into
the shared destination in the order given by `schedule`: layer
`schedule[0]`'s archive pass completes first, then `schedule[1]`'s, and so
on. The code launches one goroutine per layer with no ordering constraint
between them, so every permutation of the layer indices is a possible
schedule. -/
def processLayersApply (layers : List (List TarEntry)) (schedule : List Nat)
    (dest : FsTree) : FsTree :=
  schedule.foldl (fun t i => unpackTarModel (layers.getD i []) t) dest

/-- All ways of inserting `x` into a list. -/
def insertEverywhere (x : Nat) : List Nat → List (List Nat)
  | [] => [[x]]
  | y :: ys => (x :: y :: ys) :: (insertEverywhere x ys).map (fun l => y :: l)

/-- All permutations of a list of indices. -/
def allPerms : List Nat → List (List Nat)
  | [] => [[]]
  | x :: xs => (allPerms xs).flatMap (insertEverywhere x)

/-- The completion orders admitted by `processLayers`'s concurrency
structure: one goroutine per layer, synchronized only by a `WaitGroup`, so
any permutation of the indices `0..n-1` can be the order in which the
`unpackTar` passes run over the shared destination. -/
def possibleSchedules (n : Nat) : List (List Nat) :=
  allPerms (List.range n)

/-- The number of buffered elements a Go channel of capacity `cap` can hold
when `queued` sends have been issued: never more than the capacity. -/
def chanBufLen (cap queued : Nat) : Nat := min cap queued

/-- The error result of `processLayers` (part_002, lines 116-163) given the
error strings its workers send: the function makes an UNBUFFERED channel
(`errs := make(chan error)`, capacity 0), spawns the workers, and then tests
`len(errs) != 0`; only when that test passes does it drain the channel and
return the concatenated error, otherwise it returns the nil `err`. -/
def processLayersErrResult (workerErrs : List String) : Option String :=
  if chanBufLen 0 workerErrs.length ≠ 0 then
    some (workerErrs.foldl (fun acc e => acc ++ e) "")
  else
    none

/-- A `Result`'s rendering behavior (util.Result): `OutputStruct()` yields an
opaque structured payload, `OutputText(analyzerType)` either prints text or
fails. -/
structure AnalyzerResult where
  payload : String
  text : String → Except String String

/-- The events the text-mode loop of `outputResults` produces for one
analyzer: text printed to the terminal, or an error passed to
`glog.Error`. -/
inductive RenderEvent where
  | rendered (name text : String)
  | logged (err : String)
deriving DecidableEq, Repr

/-- Lexicographic less-or-equal on character lists, comparing code points
(for strings this agrees with Go's byte-wise comparison, since UTF-8
preserves code-point order). -/
def charListLe : List Char → List Char → Bool
  | [], _ => true
  | _ :: _, [] => false
  | a :: as, b :: bs =>
    if a.toNat < b.toNat then true
    else if b.toNat < a.toNat then false
    else charListLe as bs

/-- Lexicographic less-or-equal on strings. -/
def strLe (a b : String) : Bool :=
  charListLe a.data b.data

/-- Insert a string into an already-sorted list, keeping ascending order. -/
def insertSorted (x : String) : List String → List String
  | [] => [x]
  | y :: ys => if strLe x y then x :: y :: ys else y :: insertSorted x ys

/-- Model of Go `sort.Strings`: sort ascending lexicographically. -/
def sortStrings (l : List String) : List String :=
  l.foldr insertSorted []

/-- Model of a Go map read `m[k]` over an association list with distinct
keys. -/
def mapGet (m : List (String × AnalyzerResult)) (k : String) :
    Option AnalyzerResult :=
  match m with
  | [] => none
  | (k1, v) :: rest => if k1 = k then some v else mapGet rest k

/-- The keys collected by `for analyzerType := range resultMap`, in whatever
order the map iteration yields them. -/
abbrev mapKeys (m : List (String × AnalyzerResult)) : List String :=
  m.map Prod.fst

/-- JSON mode of `outputResults` (cmd package, part_000 lines 56-82): the
analyzer names are sorted with `sort.Strings` and the `results` slice is
filled with each analyzer's `OutputStruct()` payload in that order, then
emitted once by `util.JSONify(results)`. Absent map entries contribute the
zero value. -/
def outputResultsJson (m : List (String × AnalyzerResult)) : List String :=
  (sortStrings (mapKeys m)).map
    (fun k =>
      match mapGet m k with
      | some r => r.payload
      | none => "")

/-- Text mode of `outputResults` (cmd package, part_000 lines 56-82): iterate
over the sorted analyzer names; each `OutputText(analyzerType)` failure is
passed to `glog.Error` and the loop CONTINUES with the next analyzer. -/
def outputResultsText (m : List (String × AnalyzerResult)) :
    List RenderEvent :=
  (sortStrings (mapKeys m)).map
    (fun k =>
      match mapGet m k with
      | some r =>
        match r.text k with
        | .ok t => .rendered k t
        | .error e => .logged e
      | none => .logged "")

/-- `CleanupImage(image Image)` (part_002, lines 188-195): when `FSPath` is
empty nothing happens; otherwise `os.RemoveAll(image.FSPath)` is invoked and
a failure (`removeResult` returning an error) is only passed to
`glog.Error`. The Go function has no return value and receives the `Image`
struct by value, so it can neither report an error to the caller nor mutate
the caller's fields; the model returns the removal actions performed and the
error strings logged. -/
def CleanupImage (img : Image) (removeResult : String → Option String) :
    List String × List String :=
  if img.FSPath ≠ "" then
    ([img.FSPath],
      match removeResult img.FSPath with
      | some e => [e]
      | none => [])
  else
    ([], [])

/-- Every candidate strategy of a probe run is exhausted: each strategy in
turn (threading the identifier mutations of `SupportsImage`) either does not
claim the identifier or claims it and then fails during acquisition. -/
def exhausted : List StrategyM → String → Bool
  | [], _ => true
  | st :: rest, source =>
    if (st.supports source).1 then
      (match getImage st (st.supports source).2 with
       | .error _ => true
       | .ok _ => false)
      && exhausted rest (st.supports source).2
    else
      exhausted rest (st.supports source).2

/-- A strategy that claims every identifier and acquires successfully. -/
def okStrategy : StrategyM where
  supports := fun s => (true, s)
  getFileSystem := fun _ => .ok "/tmp/fs"
  getConfig := fun _ => .ok ConfigSchema.empty

/-- A strategy that claims every identifier but whose filesystem
materialization fails. -/
def fsFailStrategy : StrategyM where
  supports := fun s => (true, s)
  getFileSystem := fun _ => .error "fs boom"
  getConfig := fun _ => .ok ConfigSchema.empty

/-- A strategy that claims every identifier, materializes a filesystem, but
whose config extraction fails. -/
def configFailStrategy : StrategyM where
  supports := fun s => (true, s)
  getFileSystem := fun _ => .ok "/tmp/fs"
  getConfig := fun _ => .error "config boom"

/-- A strategy that claims no identifier. -/
def unclaimStrategy : StrategyM where
  supports := fun s => (false, s)
  getFileSystem := fun _ => .error "unreachable"
  getConfig := fun _ => .error "unreachable"

/-- A resolver whose three strategies all succeed. -/
def prepAllOk : Preppers where
  daemon := okStrategy
  cloud := okStrategy
  tarFile := okStrategy

/-- A resolver whose daemon strategy succeeds but whose cloud strategy
fails during acquisition. -/
def prepDandC : Preppers where
  daemon := okStrategy
  cloud := fsFailStrategy
  tarFile := unclaimStrategy

/-- A resolver whose daemon strategy claims identifiers but fails during
acquisition, whose cloud strategy succeeds, and whose tar strategy claims
nothing. -/
def prepAdvance : Preppers where
  daemon := fsFailStrategy
  cloud := okStrategy
  tarFile := unclaimStrategy

/-- A `Result` whose text rendering succeeds. -/
def resOk : AnalyzerResult where
  payload := "okPayload"
  text := fun n => .ok ("text for " ++ n)

/-- A `Result` whose text rendering fails. -/
def resFail : AnalyzerResult where
  payload := "failPayload"
  text := fun _ => .error "render failed"


theorem char_toNat_inj {a b : Char} (h : a.toNat = b.toNat) : a = b := by
  rw [← Char.ofNat_toNat a, ← Char.ofNat_toNat b, h]

theorem getImage_ok_source (st : StrategyM) (src : String) (img : Image)
    (h : getImage st src = .ok img) : img.Source = src := by
  unfold getImage at h
  cases hf : st.getFileSystem src with
  | error e => simp [hf] at h
  | ok p =>
    cases hc : st.getConfig src with
    | error e => simp [hf, hc] at h
    | ok c =>
      simp [hf, hc] at h
      rw [← h]

theorem probeLoop_error_iff (sts : List StrategyM) (source : String) :
    probeLoop sts source = .error "Could not retrieve image from source"
      ↔ exhausted sts source = true := by
  induction sts generalizing source with
  | nil => simp [probeLoop, exhausted]
  | cons st rest ih =>
    by_cases hp : (st.supports source).1 = true
    · cases hg : getImage st (st.supports source).2 with
      | ok img => simp [probeLoop, exhausted, hp, hg]
      | error e => simp [probeLoop, exhausted, hp, hg, ih]
    · replace hp : (st.supports source).1 = false := by
        simpa using hp
      simp [probeLoop, exhausted, hp, ih]

/-- Claim C1: the Layer Acquisition Pipeline is claimed to apply layers to the
destination strictly in increasing index order, layer `i`'s archive-decoding
pass completing before layer `i+1`'s begins. The code refutes this:
`processLayers` launches one goroutine per layer, each running `unpackTar`
into the shared destination, with no ordering between them, so the reversed
schedule `[1, 0]` is a possible completion order, and on two layers that both
write the path "etc" (or where the later layer whites it out) it produces a
different final tree than the in-order schedule. -/
theorem claim_c1 :
    [1, 0] ∈ possibleSchedules 2
    ∧ processLayersApply
        [[TarEntry.file "etc" "base"], [TarEntry.file "etc" "patched"]]
        [1, 0] []
      ≠ processLayersApply
        [[TarEntry.file "etc" "base"], [TarEntry.file "etc" "patched"]]
        [0, 1] []
    ∧ processLayersApply
        [[TarEntry.file "etc" "base"], [TarEntry.whiteout "etc"]] [0, 1] [] = []
    ∧ processLayersApply
        [[TarEntry.file "etc" "base"], [TarEntry.whiteout "etc"]] [1, 0] []
      = [("etc", "base")] := by
  decide

/-- Claim C2: the pipeline is claimed to return a non-nil aggregated error
whenever at least one layer worker fails. The code refutes this:
`processLayers` tests `len(errs) != 0` on an UNBUFFERED error channel, whose
buffered length is always zero, so the drain-and-aggregate branch is dead
code and the function returns nil no matter what errors the workers
produced. -/
theorem claim_c2 (workerErrs : List String) :
    processLayersErrResult workerErrs = none := by
  simp [processLayersErrResult, chanBufLen]

/-- Claim C10: `CleanupImage` on an `Image` with empty `FSPath` performs no
removal; on a non-empty `FSPath` it removes exactly that directory tree, and
a removal failure is only logged, never returned (the Go function has no
return value and takes the `Image` by value). -/
theorem claim_c10 (img : Image) (removeResult : String → Option String) :
    CleanupImage img removeResult
      = if img.FSPath = "" then ([], [])
        else ([img.FSPath],
              match removeResult img.FSPath with
              | some e => [e]
              | none => []) := by
  by_cases h : img.FSPath = "" <;> simp [CleanupImage, h]

/-- Claim C5: `CloudPrepper.SupportsImage` is claimed to return true exactly
when the stored identifier has no daemon prefix, is not a tar path, and
parses as a valid registry reference. The first revision of the code
(cloud_prepper.go lines 42-55) inverts the parse condition: on the valid
reference "gcr.io/library/app" (parse succeeds, not a tar, no daemon prefix)
it returns false, while the second revision (lines 110-117) returns true; and
on an identifier that fails to parse it returns true. -/
theorem claim_c5 :
    cloudSupportsRevA (fun _ => true) (fun _ => false) "gcr.io/library/app"
      = (false, "gcr.io/library/app")
    ∧ cloudSupportsRevB (fun _ => true) (fun _ => false) "gcr.io/library/app"
      = true
    ∧ cloudSupportsRevA (fun _ => false) (fun _ => false) "####"
      = (true, "####") := by
  refine ⟨by decide, by decide, by decide⟩

/-- Claim C6 counterexample: a strategy whose config extraction fails, for
which the util-package revision of `getImage` (part_002 lines 61-79)
nevertheless returns a SUCCESS `Image` carrying the zero `ConfigSchema`,
contradicting the claim that a `GetConfig` error never yields a successful
`Image` with an empty config. -/
theorem claim_c6_counterexample :
    configFailStrategy.getConfig "img" = .error "config boom"
    ∧ getImageLogged configFailStrategy "img"
      = .ok { Source := "img", FSPath := "/tmp/fs",
              Config := ConfigSchema.empty } :=
  ⟨rfl, rfl⟩

/-- Claim C6 as amended: when a strategy's `GetConfig` fails (and its
filesystem materialization succeeded), the image_prepper.go revision of
`getImage` aborts with the wrapped error, while the util-package revision
(part_002) only logs the failure and returns a success `Image` whose
`ConfigSchema` is the zero value. -/
theorem claim_c6 (st : StrategyM) (s e fs : String)
    (hc : st.getConfig s = .error e) (hf : st.getFileSystem s = .ok fs) :
    getImage st s = .error ("error msg: " ++ e)
    ∧ getImageLogged st s
      = .ok { Source := s, FSPath := fs, Config := ConfigSchema.empty } := by
  constructor
  · unfold getImage
    simp [hc, hf]
  · unfold getImageLogged
    simp [hc, hf]

theorem claim_c6_witness :
    configFailStrategy.getConfig "img" = .error "config boom"
    ∧ configFailStrategy.getFileSystem "img" = .ok "/tmp/fs"
    ∧ (getImage configFailStrategy "img" = .error ("error msg: " ++ "config boom")
       ∧ getImageLogged configFailStrategy "img"
         = .ok { Source := "img", FSPath := "/tmp/fs",
                 Config := ConfigSchema.empty }) :=
  ⟨rfl, rfl, claim_c6 configFailStrategy "img" "config boom" "/tmp/fs" rfl rfl⟩


/-- Claim C3: an identifier carrying the daemon scheme is resolved
exclusively by the daemon strategy on the scheme-stripped identifier — the
result equals a bare `getImage` run of that strategy, so no other strategy's
`SupportsImage` is consulted and the strategy's failure is the resolver's
failure — and two resolvers sharing the daemon strategy resolve it
identically whatever their other strategies; symmetrically an identifier
carrying the remote scheme is resolved exclusively by the cloud strategy. -/
theorem claim_c3 (ps ps2 : Preppers) (s t : String)
    (hsame : ps2.daemon = ps.daemon)
    (hd : goHasPrefix s DaemonScheme = true)
    (h1 : goHasPrefix t DaemonScheme = false)
    (h2 : goHasPrefix t RemoteScheme = true) :
    GetImage ps s = getImage ps.daemon (goRemoveAll s DaemonScheme)
    ∧ GetImage ps2 s = GetImage ps s
    ∧ GetImage ps t = getImage ps.cloud (goRemoveAll t RemoteScheme) := by
  unfold GetImage
  simp [hd, h1, h2, hsame]

theorem claim_c3_witness :
    goHasPrefix "daemon://repo/app" DaemonScheme = true
    ∧ goHasPrefix "remote://repo/app" DaemonScheme = false
    ∧ goHasPrefix "remote://repo/app" RemoteScheme = true
    ∧ (GetImage prepDandC "daemon://repo/app"
        = getImage prepDandC.daemon (goRemoveAll "daemon://repo/app" DaemonScheme)
       ∧ GetImage prepAllOk "daemon://repo/app" = GetImage prepDandC "daemon://repo/app"
       ∧ GetImage prepDandC "remote://repo/app"
        = getImage prepDandC.cloud (goRemoveAll "remote://repo/app" RemoteScheme)) :=
  ⟨rfl, rfl, rfl,
    claim_c3 prepDandC prepAllOk "daemon://repo/app" "remote://repo/app" rfl rfl rfl rfl⟩

/-- Claim C4: on an identifier with neither scheme prefix the resolver runs
the probe loop over the fixed strategy order (daemon, cloud, tar); it
reports the resolution-failure error exactly when every candidate either
does not claim the identifier or claims it and fails during acquisition; and
when the daemon strategy claims the identifier, its successful acquisition
is returned while its failure advances the probe to the remaining
strategies. -/
theorem claim_c4 (ps : Preppers) (s : String)
    (h1 : goHasPrefix s DaemonScheme = false)
    (h2 : goHasPrefix s RemoteScheme = false) :
    GetImage ps s = probeLoop (orderedPreppers ps) s
    ∧ (GetImage ps s = .error "Could not retrieve image from source"
        ↔ exhausted (orderedPreppers ps) s = true)
    ∧ ((ps.daemon.supports s).1 = true →
        ∀ img, getImage ps.daemon (ps.daemon.supports s).2 = .ok img →
          GetImage ps s = .ok img)
    ∧ ((ps.daemon.supports s).1 = true →
        ∀ e, getImage ps.daemon (ps.daemon.supports s).2 = .error e →
          GetImage ps s
            = probeLoop [ps.cloud, ps.tarFile] (ps.daemon.supports s).2) := by
  have hG : GetImage ps s = probeLoop (orderedPreppers ps) s := by
    unfold GetImage
    simp [h1, h2]
  refine ⟨hG, ?_, ?_, ?_⟩
  · rw [hG]
    exact probeLoop_error_iff _ _
  · intro hp img hok
    rw [hG]
    simp [orderedPreppers, probeLoop, hp, hok]
  · intro hp e herr
    rw [hG]
    simp [orderedPreppers, probeLoop, hp, herr]

theorem claim_c4_witness :
    goHasPrefix "ubuntu" DaemonScheme = false
    ∧ goHasPrefix "ubuntu" RemoteScheme = false
    ∧ (GetImage prepAdvance "ubuntu" = probeLoop (orderedPreppers prepAdvance) "ubuntu"
       ∧ (GetImage prepAdvance "ubuntu" = .error "Could not retrieve image from source"
           ↔ exhausted (orderedPreppers prepAdvance) "ubuntu" = true)
       ∧ ((prepAdvance.daemon.supports "ubuntu").1 = true →
           ∀ img, getImage prepAdvance.daemon (prepAdvance.daemon.supports "ubuntu").2 = .ok img →
             GetImage prepAdvance "ubuntu" = .ok img)
       ∧ ((prepAdvance.daemon.supports "ubuntu").1 = true →
           ∀ e, getImage prepAdvance.daemon (prepAdvance.daemon.supports "ubuntu").2 = .error e →
             GetImage prepAdvance "ubuntu"
               = probeLoop [prepAdvance.cloud, prepAdvance.tarFile]
                   (prepAdvance.daemon.supports "ubuntu").2)) :=
  ⟨rfl, rfl, claim_c4 prepAdvance "ubuntu" rfl rfl⟩

/-- Claim C9: on a scheme-prefixed identifier the resolver strips EVERY
occurrence of the scheme substring (Go `strings.Replace` with count -1), and
the `Source` field of the returned `Image` is the stripped string, not the
original identifier; the sample identifiers with a second mid-string
occurrence show that the removal is not limited to the leading occurrence. -/
theorem claim_c9 (ps : Preppers) (s t : String) (img img2 : Image)
    (hd : goHasPrefix s DaemonScheme = true)
    (hok : GetImage ps s = .ok img)
    (h1 : goHasPrefix t DaemonScheme = false)
    (h2 : goHasPrefix t RemoteScheme = true)
    (hok2 : GetImage ps t = .ok img2) :
    img.Source = goRemoveAll s DaemonScheme
    ∧ img2.Source = goRemoveAll t RemoteScheme
    ∧ goRemoveAll "daemon://a/daemon://b" DaemonScheme = "a/b"
    ∧ goRemoveAll "remote://c/remote://d" RemoteScheme = "c/d" := by
  unfold GetImage at hok hok2
  simp [hd] at hok
  simp [h1, h2] at hok2
  exact ⟨getImage_ok_source _ _ _ hok, getImage_ok_source _ _ _ hok2,
    by decide, by decide⟩

theorem claim_c9_witness :
    goHasPrefix "daemon://a/daemon://b" DaemonScheme = true
    ∧ GetImage prepAllOk "daemon://a/daemon://b"
      = .ok { Source := "a/b", FSPath := "/tmp/fs", Config := ConfigSchema.empty }
    ∧ goHasPrefix "remote://c/remote://d" DaemonScheme = false
    ∧ goHasPrefix "remote://c/remote://d" RemoteScheme = true
    ∧ GetImage prepAllOk "remote://c/remote://d"
      = .ok { Source := "c/d", FSPath := "/tmp/fs", Config := ConfigSchema.empty }
    ∧ (Image.Source { Source := "a/b", FSPath := "/tmp/fs", Config := ConfigSchema.empty }
        = goRemoveAll "daemon://a/daemon://b" DaemonScheme
       ∧ Image.Source { Source := "c/d", FSPath := "/tmp/fs", Config := ConfigSchema.empty }
        = goRemoveAll "remote://c/remote://d" RemoteScheme
       ∧ goRemoveAll "daemon://a/daemon://b" DaemonScheme = "a/b"
       ∧ goRemoveAll "remote://c/remote://d" RemoteScheme = "c/d") :=
  ⟨rfl, rfl, rfl, rfl, rfl,
    claim_c9 prepAllOk "daemon://a/daemon://b" "remote://c/remote://d"
      { Source := "a/b", FSPath := "/tmp/fs", Config := ConfigSchema.empty }
      { Source := "c/d", FSPath := "/tmp/fs", Config := ConfigSchema.empty }
      rfl rfl rfl rfl rfl⟩


theorem charListLe_total : ∀ as bs : List Char,
    charListLe as bs = true ∨ charListLe bs as = true := by
  intro as
  induction as with
  | nil => intro bs; left; simp [charListLe]
  | cons a as ih =>
    intro bs
    cases bs with
    | nil => right; simp [charListLe]
    | cons b bs =>
      by_cases h1 : a.toNat < b.toNat
      · left; simp [charListLe, h1]
      · by_cases h2 : b.toNat < a.toNat
        · right; simp [charListLe, h2]
        · cases ih bs with
          | inl h => left; simp [charListLe, h1, h2, h]
          | inr h => right; simp [charListLe, h1, h2, h]

theorem charListLe_antisymm : ∀ as bs : List Char,
    charListLe as bs = true → charListLe bs as = true → as = bs := by
  intro as
  induction as with
  | nil =>
    intro bs h1 h2
    cases bs with
    | nil => rfl
    | cons b bs => simp [charListLe] at h2
  | cons a as ih =>
    intro bs h1 h2
    cases bs with
    | nil => simp [charListLe] at h1
    | cons b bs =>
      by_cases hab : a.toNat < b.toNat
      · have hba : ¬ b.toNat < a.toNat := Nat.lt_asymm hab
        simp [charListLe, hab, hba] at h2
      · by_cases hba : b.toNat < a.toNat
        · simp [charListLe, hab, hba] at h1
        · have hn : a.toNat = b.toNat := Nat.le_antisymm
            (Nat.le_of_not_lt hba) (Nat.le_of_not_lt hab)
          have he : a = b := char_toNat_inj hn
          subst he
          simp [charListLe, hab] at h1 h2
          rw [ih bs h1 h2]

theorem charListLe_trans : ∀ as bs cs : List Char,
    charListLe as bs = true → charListLe bs cs = true →
    charListLe as cs = true := by
  intro as
  induction as with
  | nil => intro bs cs h1 h2; simp [charListLe]
  | cons a as ih =>
    intro bs cs h1 h2
    cases bs with
    | nil => simp [charListLe] at h1
    | cons b bs =>
      cases cs with
      | nil => simp [charListLe] at h2
      | cons c cs =>
        by_cases hab : a.toNat < b.toNat
        · by_cases hbc : b.toNat < c.toNat
          · have : a.toNat < c.toNat := Nat.lt_trans hab hbc
            simp [charListLe, this]
          · by_cases hcb : c.toNat < b.toNat
            · simp [charListLe, hbc, hcb] at h2
            · have : b.toNat = c.toNat := Nat.le_antisymm
                (Nat.le_of_not_lt hcb) (Nat.le_of_not_lt hbc)
              have hac : a.toNat < c.toNat := this ▸ hab
              simp [charListLe, hac]
        · by_cases hba : b.toNat < a.toNat
          · simp [charListLe, hab, hba] at h1
          · have heq : a.toNat = b.toNat := Nat.le_antisymm
              (Nat.le_of_not_lt hba) (Nat.le_of_not_lt hab)
            simp [charListLe, hab, hba] at h1
            by_cases hbc : b.toNat < c.toNat
            · have : a.toNat < c.toNat := heq ▸ hbc
              simp [charListLe, this]
            · by_cases hcb : c.toNat < b.toNat
              · simp [charListLe, hbc, hcb] at h2
              · simp [charListLe, hbc, hcb] at h2
                have h1' : ¬ a.toNat < c.toNat := by
                  rw [heq]; exact hbc
                have h2' : ¬ c.toNat < a.toNat := by
                  rw [heq]; exact hcb
                simp [charListLe, h1', h2']
                exact ih bs cs h1 h2

theorem strLe_total (a b : String) : strLe a b = true ∨ strLe b a = true :=
  charListLe_total a.data b.data

theorem strLe_antisymm : ∀ a b : String,
    strLe a b = true → strLe b a = true → a = b := by
  intro a b h1 h2
  cases a with
  | mk da =>
    cases b with
    | mk db =>
      have : da = db := charListLe_antisymm da db h1 h2
      rw [this]

theorem strLe_trans : ∀ a b c : String,
    strLe a b = true → strLe b c = true → strLe a c = true := by
  intro a b c h1 h2
  exact charListLe_trans a.data b.data c.data h1 h2

theorem insertSorted_perm (x : String) (l : List String) :
    (insertSorted x l).Perm (x :: l) := by
  induction l with
  | nil => exact List.Perm.refl _
  | cons y ys ih =>
    by_cases h : strLe x y
    · simp [insertSorted, h]
    · simp only [insertSorted, h, Bool.false_eq_true, if_false]
      exact (ih.cons y).trans (List.Perm.swap x y ys)

theorem mem_insertSorted {z x : String} {l : List String}
    (h : z ∈ insertSorted x l) : z = x ∨ z ∈ l := by
  have := (insertSorted_perm x l).mem_iff.mp h
  simpa using this

theorem pairwise_insertSorted (x : String) (l : List String)
    (h : l.Pairwise (fun a b => strLe a b = true)) :
    (insertSorted x l).Pairwise (fun a b => strLe a b = true) := by
  induction l with
  | nil => simp [insertSorted]
  | cons y ys ih =>
    rcases List.pairwise_cons.mp h with ⟨hy, hys⟩
    by_cases hxy : strLe x y
    · simp only [insertSorted, hxy, if_true]
      refine List.pairwise_cons.mpr ⟨?_, h⟩
      intro b hb
      rcases List.mem_cons.mp hb with rfl | hb2
      · exact hxy
      · exact strLe_trans x y b hxy (hy b hb2)
    · simp only [insertSorted, hxy, Bool.false_eq_true, if_false]
      refine List.pairwise_cons.mpr ⟨?_, ih hys⟩
      intro b hb
      rcases mem_insertSorted hb with rfl | hb2
      · cases strLe_total b y with
        | inl hh => exact absurd hh hxy
        | inr hh => exact hh
      · exact hy b hb2

theorem sortStrings_perm (l : List String) : (sortStrings l).Perm l := by
  induction l with
  | nil => exact List.Perm.refl _
  | cons x xs ih =>
    exact (insertSorted_perm x (sortStrings xs)).trans (ih.cons x)

theorem sortStrings_sorted (l : List String) :
    (sortStrings l).Pairwise (fun a b => strLe a b = true) := by
  induction l with
  | nil => simp [sortStrings]
  | cons x xs ih => exact pairwise_insertSorted x (sortStrings xs) ih

theorem sortStrings_congr {l1 l2 : List String} (h : l1.Perm l2) :
    sortStrings l1 = sortStrings l2 := by
  haveI : IsAntisymm String (fun a b => strLe a b = true) :=
    ⟨fun a b h1 h2 => strLe_antisymm a b h1 h2⟩
  exact List.eq_of_perm_of_sorted
    ((sortStrings_perm l1).trans (h.trans (sortStrings_perm l2).symm))
    (sortStrings_sorted l1) (sortStrings_sorted l2)

theorem mapGet_perm {m1 m2 : List (String × AnalyzerResult)}
    (h : m1.Perm m2) :
    ∀ (_ : (mapKeys m1).Nodup) (k : String), mapGet m1 k = mapGet m2 k := by
  induction h with
  | nil => intro _ k; rfl
  | cons p h ih =>
    intro nd k
    have ndt : (mapKeys _).Nodup := (List.nodup_cons.mp (by simpa using nd)).2
    by_cases hk : p.1 = k <;> simp [mapGet, hk]
    exact ih ndt k
  | swap p q l =>
    intro nd k
    have h1 : q.1 ∉ (mapKeys (p :: l)) := (List.nodup_cons.mp (by simpa using nd)).1
    have hqp : q.1 ≠ p.1 := by
      intro hh
      exact h1 (by simp [hh])
    by_cases hq : q.1 = k <;> by_cases hp : p.1 = k <;>
      simp [mapGet, hq, hp]
    exact absurd (hq.trans hp.symm) hqp
  | trans h1 h2 ih1 ih2 =>
    intro nd k
    have ndmid : (mapKeys _).Nodup := ((h1.map Prod.fst).nodup nd)
    exact (ih1 nd k).trans (ih2 ndmid k)

theorem mapGet_of_mem {m : List (String × AnalyzerResult)} {k : String}
    {r : AnalyzerResult} (nd : (mapKeys m).Nodup) (hm : (k, r) ∈ m) :
    mapGet m k = some r := by
  induction m with
  | nil => cases hm
  | cons p t ih =>
    rcases List.mem_cons.mp hm with rfl | hm2
    · simp [mapGet]
    · have hk : k ∈ mapKeys t := by
        have := List.mem_map_of_mem Prod.fst hm2
        simpa using this
      have hp : p.1 ∉ mapKeys t := (List.nodup_cons.mp (by simpa using nd)).1
      have hne : p.1 ≠ k := fun hh => hp (hh ▸ hk)
      simp [mapGet, hne]
      exact ih (List.nodup_cons.mp (by simpa using nd)).2 hm2


/-- Claim C7: both rendering modes of `outputResults` present the
per-analyzer results in ascending lexicographic order of analyzer name — the
visited name sequence is sorted — and the rendered output is invariant under
any reordering (permutation) of the request map, in JSON mode and in text
mode alike. -/
theorem claim_c7 (m1 m2 : List (String × AnalyzerResult))
    (hperm : m1.Perm m2) (nd : (mapKeys m1).Nodup) :
    (sortStrings (mapKeys m1)).Pairwise (fun a b => strLe a b = true)
    ∧ outputResultsJson m1 = outputResultsJson m2
    ∧ outputResultsText m1 = outputResultsText m2 := by
  have hkeys : sortStrings (mapKeys m1) = sortStrings (mapKeys m2) :=
    sortStrings_congr (hperm.map Prod.fst)
  have hget : ∀ k, mapGet m1 k = mapGet m2 k := mapGet_perm hperm nd
  refine ⟨sortStrings_sorted _, ?_, ?_⟩
  · unfold outputResultsJson
    rw [← hkeys]
    apply List.map_congr_left
    intro k _
    rw [hget k]
  · unfold outputResultsText
    rw [← hkeys]
    apply List.map_congr_left
    intro k _
    rw [hget k]

theorem claim_c7_witness :
    (mapKeys [("pip", resOk), ("apt", resFail)]).Nodup
    ∧ ((sortStrings (mapKeys [("pip", resOk), ("apt", resFail)])).Pairwise
        (fun a b => strLe a b = true)
       ∧ outputResultsJson [("pip", resOk), ("apt", resFail)]
        = outputResultsJson [("apt", resFail), ("pip", resOk)]
       ∧ outputResultsText [("pip", resOk), ("apt", resFail)]
        = outputResultsText [("apt", resFail), ("pip", resOk)]) :=
  ⟨by decide,
    claim_c7 [("pip", resOk), ("apt", resFail)] [("apt", resFail), ("pip", resOk)]
      (List.Perm.swap ("apt", resFail) ("pip", resOk) []) (by decide)⟩

/-- Claim C8: in text mode, every analyzer of the request map produces
exactly one render event — a failing `OutputText` is reported as a logged
error and the loop continues, so an analyzer whose rendering succeeds is
rendered no matter how the others fail, and the number of events equals the
number of analyzers. -/
theorem claim_c8 (m : List (String × AnalyzerResult)) (k t e : String)
    (r : AnalyzerResult)
    (nd : (mapKeys m).Nodup) (hm : (k, r) ∈ m) :
    (r.text k = .ok t → RenderEvent.rendered k t ∈ outputResultsText m)
    ∧ (r.text k = .error e → RenderEvent.logged e ∈ outputResultsText m)
    ∧ (outputResultsText m).length = m.length := by
  have hget : mapGet m k = some r := mapGet_of_mem nd hm
  have hkmem : k ∈ sortStrings (mapKeys m) := by
    refine (sortStrings_perm (mapKeys m)).mem_iff.mpr ?_
    have := List.mem_map_of_mem Prod.fst hm
    simpa using this
  refine ⟨?_, ?_, ?_⟩
  · intro hok
    refine List.mem_map.mpr ⟨k, hkmem, ?_⟩
    simp [hget, hok]
  · intro herr
    refine List.mem_map.mpr ⟨k, hkmem, ?_⟩
    simp [hget, herr]
  · unfold outputResultsText
    rw [List.length_map]
    rw [(sortStrings_perm (mapKeys m)).length_eq]
    simp [mapKeys]

theorem claim_c8_witness :
    (mapKeys [("apt", resFail), ("pip", resOk)]).Nodup
    ∧ ((resFail.text "apt" = .ok "unused" →
         RenderEvent.rendered "apt" "unused"
           ∈ outputResultsText [("apt", resFail), ("pip", resOk)])
       ∧ (resFail.text "apt" = .error "render failed" →
         RenderEvent.logged "render failed"
           ∈ outputResultsText [("apt", resFail), ("pip", resOk)])
       ∧ (outputResultsText [("apt", resFail), ("pip", resOk)]).length
         = [("apt", resFail), ("pip", resOk)].length) :=
  ⟨by decide,
    claim_c8 [("apt", resFail), ("pip", resOk)] "apt" "unused" "render failed"
      resFail (by decide) (List.Mem.head _)⟩

end ContainerDiff
